import Mathlib

/-!
Verification development for the FPL context pipeline
(`fetch_fpl_context.py` and `populate_prompt.py`).

The Python code is shallowly embedded: JSON dictionaries become structures,
`None`-able / possibly-absent values become `Option`, and fallible code
returns `Option` (or the three-valued `PyOutcome` where the distinction
between a caught and an uncaught exception matters).

Numbers: every IEEE binary64 value is a rational, so `float`-valued
quantities live in `ℚ`.  Where the program performs float *arithmetic* whose
rounding is observable — the Transfer Advisor's budget filter, cost delta
and points delta — each operation is followed by `fl`, the round-to-nearest,
ties-to-even binary64 rounding (e.g. `0.3 + 0.1` rounds to exactly `fl 0.4`
while `0.4 - 0.3` exceeds `fl 0.1`, as in the program).  Where the float
results coincide with the exact values on all representable program data —
tenth-of-a-unit formatting, two-decimal rounding of small-denominator
averages, integer-derived comparisons — exact rational arithmetic is used
directly.

Rational arithmetic is implemented through `mkRat` and integer operations so
that every definition evaluates by kernel reduction (`decide`); bridging
lemmas identify these operations with the field operations of `ℚ`.
-/

/-! ## Kernel-computable rational helpers -/

/-- Addition on `ℚ`, implemented with `mkRat` so it evaluates by kernel
reduction.  Equal to `a + b` (see `qadd_eq`). -/
def qadd (a b : ℚ) : ℚ := mkRat (a.num * b.den + b.num * a.den) (a.den * b.den)

/-- Subtraction on `ℚ`, implemented with `mkRat`.  Equal to `a - b`. -/
def qsub (a b : ℚ) : ℚ := mkRat (a.num * b.den - b.num * a.den) (a.den * b.den)

/-- `n / 10.0` of the Python sources: conversion of an integer number of
tenths (costs, selling prices, bank) to the display unit (millions). -/
def qdiv10 (n : Int) : ℚ := mkRat n 10

/-- Multiplication of a rational by an integer, via `mkRat`. -/
def qmulInt (q : ℚ) (k : Int) : ℚ := mkRat (q.num * k) q.den

/-- `s / c` for an integer total and a natural count (fixture-difficulty
averages). -/
def qavg (s : Int) (c : Nat) : ℚ := mkRat s c

/-- Round a rational to the nearest integer, ties to even: the model of
Python's `round` (and of `float` formatting) on the exact values handled by
this program. -/
def rndHalfEven (q : ℚ) : Int :=
  let f := Rat.floor q
  let r2 := 2 * (q.num - f * (q.den : Int))
  if r2 < (q.den : Int) then f
  else if (q.den : Int) < r2 then f + 1
  else if f % 2 = 0 then f else f + 1

/-- `round(x, 2)` of the source: round to two decimal places, ties to even. -/
def rnd2 (q : ℚ) : ℚ := mkRat (rndHalfEven (qmulInt q 100)) 100

/-- `f"{x:.1f}"` of the source: format a rational with exactly one decimal
digit (the program only ever formats non-negative multiples of `0.1`, on
which this agrees with Python's float formatting). -/
def fmt1 (q : ℚ) : String :=
  let n := rndHalfEven (qmulInt q 10)
  if n < 0 then "-" ++ toString ((-n).toNat / 10) ++ "." ++ toString ((-n).toNat % 10)
  else toString (n.toNat / 10) ++ "." ++ toString (n.toNat % 10)

/-! ## IEEE binary64 rounding

The quantities the Transfer Advisor subtracts and adds (`x / 10.0` money
values, parsed projected points) are not all exactly representable in
binary64, and the feasibility flag observes the rounding: in the program
`0.3 + 0.1 == 0.4` holds while `0.4 - 0.3 > 0.1`.  `fl` is
round-to-nearest, ties-to-even binary64 rounding on `ℚ` (faithful on the
normal range; subnormal underflow and overflow lie far outside this
program's quantities). -/

/-- `⌊log2 n⌋` for positive `n`, via the base-2 digit count (structural, so
it evaluates by kernel reduction). -/
def natLog2floor (n : Nat) : Nat := (Nat.toDigits 2 n).length - 1

/-- `2 ^ j` as a rational, for an integer `j`. -/
def qpow2 (j : Int) : ℚ :=
  if 0 ≤ j then mkRat (2 ^ j.toNat) 1 else mkRat 1 (2 ^ (-j).toNat)

/-- `q * 2 ^ j`, via `mkRat`. -/
def qmulPow2 (q : ℚ) (j : Int) : ℚ :=
  if 0 ≤ j then mkRat (q.num * (2 ^ j.toNat : Nat)) q.den
  else mkRat q.num (q.den * 2 ^ (-j).toNat)

/-- `⌊log2 q⌋` for positive `q`: the digit-count estimate corrected by at
most one by direct comparison. -/
def qlog2floor (q : ℚ) : Int :=
  let k0 : Int := (natLog2floor q.num.toNat : Int) - (natLog2floor q.den : Int)
  if qpow2 (k0 + 1) ≤ q then k0 + 1
  else if q < qpow2 k0 then k0 - 1
  else k0

/-- Round a rational to the nearest IEEE binary64 value (53-bit mantissa,
ties to even).  Models the result of each Python float operation in the
Transfer Advisor. -/
def fl (q : ℚ) : ℚ :=
  if q = 0 then 0
  else
    let aq : ℚ := if q < 0 then mkRat (-q.num) q.den else q
    let e : Int := qlog2floor aq - 52
    let r : ℚ := qmulPow2 (mkRat (rndHalfEven (qmulPow2 aq (-e))) 1) e
    if q < 0 then mkRat (-r.num) r.den else r

/-! ## Stable sorting

Python's `list.sort` / `sorted` are stable.  A stable sort with respect to a
total preorder is unique, so it is modelled by a structurally recursive
insertion sort that inserts each later element after the equal elements
already placed. -/

/-- Insert `x` into `l` after every element `y` with `le y x` (stable
insertion for an ascending sort). -/
def insStable (le : α → α → Bool) (x : α) : List α → List α
  | [] => [x]
  | y :: ys => if le y x then y :: insStable le x ys else x :: y :: ys

/-- Model of Python's stable `sort` with a boolean `≤`-style comparison. -/
def pysort (le : α → α → Bool) (l : List α) : List α :=
  l.foldl (fun acc x => insStable le x acc) []

/-- Python's `min(l, key=k)`: the first element of `l` attaining the minimal
key (folds keeping the incumbent unless a strictly smaller key appears). -/
def minByFirst (key : α → ℚ) : α → List α → α
  | acc, [] => acc
  | acc, x :: xs => minByFirst key (if key x < key acc then x else acc) xs

/-! ## Data model

Mirrors of the JSON records consumed by the pipeline.  `Option` models a
value that is JSON `null` / an absent key / (for the string-typed metrics
`ep_next`, `form`, `ict_index`) the falsy empty string, which the source
defaults before use. -/

/-- A catalog player as produced by `map_player` (the shape stored in
`context["market"]["players"]`). -/
structure Player where
  id : Nat
  web_name : String
  first_name : String
  second_name : String
  team : Nat
  now_cost : Int
  element_type : Nat
  status : String
  chance_of_playing_next_round : Option Int
  ep_next : Option ℚ
  ep_this : Option ℚ
  minutes : Option Int
  form : Option ℚ
  ict_index : Option ℚ
  selected_by_percent : Option ℚ
  expected_goals_per_90 : Option ℚ
  expected_assists_per_90 : Option ℚ
deriving DecidableEq

/-- A team record (only the fields the pipeline reads). -/
structure Team where
  id : Nat
  short_name : String
deriving DecidableEq

/-- One entry of `my_team["picks"]`. -/
structure Pick where
  element : Nat
  position : Nat
  element_type : Nat
  is_captain : Bool
  is_vice_captain : Bool
  multiplier : Nat
  selling_price : Int
deriving DecidableEq

/-- `my_team["transfers"]`. -/
structure Transfers where
  bank : Int
  limit : Int
  made : Int
deriving DecidableEq

/-- One entry of `my_team["chips"]`. -/
structure Chip where
  name : String
  status_for_entry : String
deriving DecidableEq

/-- The authenticated `my-team` payload: a JSON object that either carries
the `_error` sentinel key (inserted by `try_get_json`) or some subset of the
data keys.  `none` in a field models an absent key. -/
structure MyTeam where
  error : Option String
  picks : Option (List Pick)
  transfers : Option Transfers
  chips : Option (List Chip)
deriving DecidableEq

/-- One entry of `history["current"]`; only `bank` is ever read. -/
structure HistEntry where
  bank : Int
deriving DecidableEq

/-- A fixture from the upcoming-window list.  `event = none` models a
fixture dict without an `"event"` key. -/
structure Fixture where
  event : Option Int
  team_h : Nat
  team_a : Nat
  team_h_difficulty : Option Int
  team_a_difficulty : Option Int
deriving DecidableEq

/-- The assembled in-memory context of `main` before restructuring, reduced
to the fields the embedded analysis stages read.  `fixtures_next6` holds
`none` for a non-dict JSON item (skipped by `isinstance` checks);
`history_current` is `none` when the history fetch returned the error
sentinel (so the `"current"` key is missing); `fixtures_this_truthy` is the
truthiness of `fixtures["this_gw"]`, the only thing the code consumes. -/
structure Context where
  gameweek : Int
  event_finished : Option Bool
  players : List Player
  teams : List Team
  my_team : MyTeam
  history_current : Option (List HistEntry)
  fixtures_this_truthy : Bool
  fixtures_next6 : List (Option Fixture)
deriving DecidableEq

/-! ## Lookups (`build_player_lookup`, `build_team_lookup`)

Python dict comprehensions keyed by id, last-write-wins: modelled as the last
matching element of the list. -/

/-- `build_player_lookup`: id → player dictionary (last wins on duplicate
ids). -/
def build_player_lookup (players : List Player) : Nat → Option Player :=
  fun i => players.reverse.find? (fun p => p.id == i)

/-- `build_team_lookup`: id → team dictionary (last wins on duplicate
ids). -/
def build_team_lookup (teams : List Team) : Nat → Option Team :=
  fun i => teams.reverse.find? (fun t => t.id == i)

/-- `position_names.get(t, "UNK")`. -/
def position_names (t : Nat) : String :=
  if t = 1 then "GK" else if t = 2 then "DEF" else if t = 3 then "MID"
  else if t = 4 then "FWD" else "UNK"

/-- `teams_by_id.get(tid, {}).get("short_name", f"Team{tid}")` — the team
display name with its fallback, as used by the squad analyzer, the fixture
estimator and the transfer advisor. -/
def teamNameOf (teams : List Team) (tid : Nat) : String :=
  ((build_team_lookup teams tid).map Team.short_name).getD ("Team" ++ toString tid)

/-! ## Squad Analyzer (`get_current_squad_analysis`) -/

/-- The per-pick analysis record built inside the squad loop. -/
structure SquadEntry where
  element_id : Nat
  position : Nat
  name : String
  full_name : String
  team : String
  position_type : String
  cost : ℚ
  selling_price : ℚ
  is_captain : Bool
  is_vice_captain : Bool
  multiplier : Nat
  ep_next : ℚ
  form : ℚ
  status : String
  chance_of_playing : Option Int
  minutes : Option Int
  ict_index : ℚ
deriving DecidableEq

/-- The body of the squad-analysis loop for one resolved pick. -/
def mkEntry (teams : List Team) (pk : Pick) (p : Player) : SquadEntry :=
  { element_id := pk.element
    position := pk.position
    name := p.web_name
    full_name := p.first_name ++ " " ++ p.second_name
    team := teamNameOf teams p.team
    position_type := position_names pk.element_type
    cost := qdiv10 p.now_cost
    selling_price := qdiv10 pk.selling_price
    is_captain := pk.is_captain
    is_vice_captain := pk.is_vice_captain
    multiplier := pk.multiplier
    ep_next := p.ep_next.getD 0
    form := p.form.getD 0
    status := p.status
    chance_of_playing := p.chance_of_playing_next_round
    minutes := p.minutes
    ict_index := p.ict_index.getD 0 }

/-- The result record of `get_current_squad_analysis`.  `club_counts` is the
per-club-name occupancy dictionary, modelled as its (total, default-0)
counting function. -/
structure SquadAnalysis where
  squad : List SquadEntry
  captain_id : Option Nat
  vice_id : Option Nat
  club_counts : String → Nat
  total_squad_value : ℚ
  starting_xi : List SquadEntry
  bench : List SquadEntry

/-- The pick-resolution loop: join each pick with its catalog player,
dropping (with a console warning, which the model ignores) any pick whose
player id is absent from the index. -/
def resolvePicks (players : List Player) (picks : List Pick) : List (Pick × Player) :=
  picks.filterMap (fun pk => (build_player_lookup players pk.element).map (fun p => (pk, p)))

/-- The entry list of the analysis, in pick order (before the final sort). -/
def squadEntries (players : List Player) (teams : List Team)
    (picks : List Pick) : List SquadEntry :=
  (resolvePicks players picks).map (fun pp => mkEntry teams pp.1 pp.2)

/-- The analysis record of `get_current_squad_analysis` computed from the
picks list.  The squad list is sorted by lineup position (stable, as in
Python). -/
def squadAnalysisOfPicks (players : List Player) (teams : List Team)
    (picks : List Pick) : SquadAnalysis :=
  { squad := pysort (fun a b => decide (a.position ≤ b.position))
      (squadEntries players teams picks)
    captain_id := (((resolvePicks players picks).filter
      (fun pp => pp.1.is_captain)).getLast?).map (fun pp => pp.1.element)
    vice_id := (((resolvePicks players picks).filter
      (fun pp => pp.1.is_vice_captain)).getLast?).map (fun pp => pp.1.element)
    club_counts := fun nm =>
      ((squadEntries players teams picks).filter (fun e => e.team == nm)).length
    total_squad_value :=
      qdiv10 (((resolvePicks players picks).map (fun pp => pp.2.now_cost)).sum)
    starting_xi := (pysort (fun a b => decide (a.position ≤ b.position))
      (squadEntries players teams picks)).filter (fun p => 0 < p.multiplier)
    bench := (pysort (fun a b => decide (a.position ≤ b.position))
      (squadEntries players teams picks)).filter (fun p => p.multiplier == 0) }

/-- `get_current_squad_analysis`: `none` when the authenticated team detail
carries the `_error` sentinel (early `return None`), or when the `picks` key
is missing (`KeyError` caught by the surrounding `except`, which also
returns `None`). -/
def get_current_squad_analysis (ctx : Context) : Option SquadAnalysis :=
  if ctx.my_team.error.isSome then none
  else ctx.my_team.picks.map (squadAnalysisOfPicks ctx.players ctx.teams)

/-! ## Fixture Difficulty Estimator (`calculate_fixtures_difficulty`) -/

/-- The fixtures of the upcoming window that the loop recognizes: dict items
(`isinstance` check) carrying an `"event"` key. -/
def recognizedFixtures (ctx : Context) : List Fixture :=
  (ctx.fixtures_next6.filterMap id).filter (fun f => f.event.isSome)

/-- One difficulty contribution `(team id, difficulty)` added into the
accumulator dictionaries.  An accumulator entry is
`(team id, difficulty total, fixture count)`; new team ids are appended
(Python dict insertion order), existing ones updated in place. -/
def bumpTeam (tid : Nat) (d : Int) :
    List (Nat × Int × Nat) → List (Nat × Int × Nat)
  | [] => [(tid, d, 1)]
  | e :: rest =>
    if e.1 = tid then (e.1, e.2.1 + d, e.2.2 + 1) :: rest
    else e :: bumpTeam tid d rest

/-- The two contributions of one fixture: home difficulty (default 3) for
the home team, then away difficulty (default 3) for the away team. -/
def fixtureEvents (f : Fixture) : List (Nat × Int) :=
  [(f.team_h, f.team_h_difficulty.getD 3), (f.team_a, f.team_a_difficulty.getD 3)]

/-- The loop of `calculate_fixtures_difficulty`: the `team_difficulties` and
`team_fixture_counts` dictionaries (always updated together, hence merged
into one association list keyed by team id). -/
def fixtureAccum (ctx : Context) : List (Nat × Int × Nat) :=
  ((recognizedFixtures ctx).flatMap fixtureEvents).foldl
    (fun acc e => bumpTeam e.1 e.2 acc) []

/-- Python dict insertion for the name-keyed result dictionary: updating an
existing key keeps its position, a new key is appended. -/
def upsertName (k : String) (v : ℚ × Nat) :
    List (String × ℚ × Nat) → List (String × ℚ × Nat)
  | [] => [(k, v)]
  | e :: rest => if e.1 = k then (e.1, v) :: rest else e :: upsertName k v rest

/-- `calculate_fixtures_difficulty`: per team name, average difficulty over
the recognized upcoming fixtures (rounded to two decimals) and the
contributing fixture count. -/
def calculate_fixtures_difficulty (ctx : Context) : List (String × ℚ × Nat) :=
  (fixtureAccum ctx).foldl
    (fun res e =>
      if 0 < e.2.2 then
        upsertName (teamNameOf ctx.teams e.1) (rnd2 (qavg e.2.1 e.2.2), e.2.2) res
      else res) []

/-- Association-list lookup keyed by team id (the reading of the
accumulator dictionaries). -/
def lookupId (tid : Nat) (l : List (Nat × Int × Nat)) : Option (Int × Nat) :=
  (l.find? (fun e => e.1 == tid)).map (fun e => e.2)

/-- The total difficulty a team id accumulates over the recognized
fixtures: home difficulty when at home, away difficulty when away (a team
meeting itself would contribute twice, as in the source). -/
def teamDifficultySum (ctx : Context) (tid : Nat) : Int :=
  ((recognizedFixtures ctx).map (fun f =>
    (if f.team_h = tid then f.team_h_difficulty.getD 3 else 0) +
    (if f.team_a = tid then f.team_a_difficulty.getD 3 else 0))).sum

/-- The number of recognized fixtures a team id appears in (home and away
both counting). -/
def teamFixtureCount (ctx : Context) (tid : Nat) : Nat :=
  ((recognizedFixtures ctx).map (fun f =>
    (if f.team_h = tid then 1 else 0) +
    (if f.team_a = tid then 1 else 0))).sum

/-! ## Transfer Advisor (`suggest_transfers`) -/

/-- A transfer suggestion as appended by the advisor loop. -/
structure Suggestion where
  out_player : String
  out_id : Nat
  in_player : String
  in_id : Nat
  position_type : String
  cost_change : ℚ
  ep_improvement : ℚ
  out_team : String
  in_team : String
  feasible : Bool
deriving DecidableEq

/-- The body of the advisor's candidate loop: club-limit rejection (only
when the candidate's club differs from the outgoing player's), then the
points-improvement threshold, then the suggestion record.  `cost_diff` and
`ep_diff` are float subtractions of float operands in the program, so each
operand and each operation result passes through the binary64 rounding `fl`
(the `bank` argument is already a binary64 value; `0.5` is exactly
representable, so the threshold comparison needs no rounding). -/
def candidateSuggestion (teams : List Team) (bank : ℚ) (clubCounts : String → Nat)
    (weakest : SquadEntry) (alt : Player) : Option Suggestion :=
  if teamNameOf teams alt.team ≠ weakest.team ∧
      3 < clubCounts (teamNameOf teams alt.team) + 1 then none
  else if mkRat 1 2 < fl (qsub (fl (alt.ep_next.getD 0)) (fl weakest.ep_next)) then
    some { out_player := weakest.name
           out_id := weakest.element_id
           in_player := alt.web_name
           in_id := alt.id
           position_type := weakest.position_type
           cost_change := fl (qsub (fl (qdiv10 alt.now_cost)) (fl weakest.selling_price))
           ep_improvement := fl (qsub (fl (alt.ep_next.getD 0)) (fl weakest.ep_next))
           out_team := weakest.team
           in_team := teamNameOf teams alt.team
           feasible := decide
             (fl (qsub (fl (qdiv10 alt.now_cost)) (fl weakest.selling_price)) ≤ bank) }
  else none

/-- The advisor's work for one position category: weakest squad member by
`ep_next` (first minimum in the lineup-ordered squad list), candidate pool
filter, stable sort by projected points descending, and the top-3 candidate
loop.  The budget filter `now_cost / 10.0 <= selling_price + bank` compares
binary64 values: the division and the addition each round through `fl` (so
e.g. a 0.4 cost passes against 0.3 + 0.1, which rounds to exactly 0.4). -/
def positionSuggestions (ctx : Context) (sa : SquadAnalysis) (bank : ℚ)
    (squadIds : List Nat) (pos : Nat) : List Suggestion :=
  match sa.squad.filter (fun p => p.position_type == position_names pos) with
  | [] => []
  | c :: cs =>
    ((pysort (fun a b => decide (fl (b.ep_next.getD 0) ≤ fl (a.ep_next.getD 0)))
        (ctx.players.filter (fun p =>
          p.element_type == pos && !(squadIds.contains p.id) && p.status == "a" &&
          decide (fl (qdiv10 p.now_cost) ≤
            fl (qadd (fl (minByFirst (fun e => e.ep_next) c cs).selling_price)
              bank))))).take 3).filterMap
      (candidateSuggestion ctx.teams bank sa.club_counts
        (minByFirst (fun e => e.ep_next) c cs))

/-- The descending `(feasible, ep_improvement)` comparison of the final
sort: Python tuple order with `False < True`, reversed. -/
def suggestionDescLe (a b : Suggestion) : Bool :=
  (!b.feasible && a.feasible) ||
  (b.feasible == a.feasible && decide (b.ep_improvement ≤ a.ep_improvement))

/-- `suggest_transfers` (with the default `max_suggestions=5`): empty when
the squad analysis is unavailable or when reading the latest history entry
raises (caught by the surrounding `except`); otherwise the per-position
suggestions, sorted by `(feasible, ep_improvement)` descending, truncated
to five. -/
def suggest_transfers (ctx : Context) : List Suggestion :=
  match get_current_squad_analysis ctx with
  | none => []
  | some sa =>
    match ctx.history_current with
    | none => []
    | some hist =>
      match hist.getLast? with
      | none => []
      | some h =>
        (pysort suggestionDescLe (([1, 2, 3, 4] : List Nat).flatMap
          (positionSuggestions ctx sa (fl (qdiv10 h.bank))
            (sa.squad.map (fun p => p.element_id))))).take 5

/-! ## Summary section and data-quality validation -/

/-- The `squad_summary` sub-record of the summary section. -/
structure SquadSummaryInfo where
  total_players : Nat
  starting_xi_count : Nat
  bench_count : Nat
  captain : String
  vice_captain : String
  total_value : ℚ
  club_distribution : String → Nat

/-- The squad summary built by `create_summary_section` from a successful
squad analysis. -/
def mkSquadSummary (sa : SquadAnalysis) : SquadSummaryInfo :=
  { total_players := sa.squad.length
    starting_xi_count := sa.starting_xi.length
    bench_count := sa.bench.length
    captain := match sa.starting_xi.find? (fun p => p.is_captain) with
      | some p => p.name ++ " (" ++ p.team ++ ")"
      | none => "None set"
    vice_captain := match sa.starting_xi.find? (fun p => p.is_vice_captain) with
      | some p => p.name ++ " (" ++ p.team ++ ")"
      | none => "None set"
    total_value := sa.total_squad_value
    club_distribution := sa.club_counts }

/-- The summary section of the output artifact. -/
structure Summary where
  gameweek : Int
  authentication_status : String
  bank_available : ℚ
  free_transfers : Int
  chips_available : List String
  squad_summary : Option SquadSummaryInfo
  data_quality_warnings : List String

/-- `create_summary_section`: `none` models the `{"error": ...}` record its
`except` clause returns, reached when reading the latest history entry
raises (missing `"current"` key, or an empty history list). -/
def create_summary_section (ctx : Context) : Option Summary :=
  match ctx.history_current with
  | none => none
  | some hist =>
    match hist.getLast? with
    | none => none
    | some h =>
      let my := ctx.my_team
      some
        { gameweek := ctx.gameweek
          authentication_status :=
            match my.error, my.transfers with
            | none, some _ => "authenticated"
            | _, _ => "unauthenticated - using default assumptions"
          bank_available := qdiv10 h.bank
          free_transfers :=
            match my.error, my.transfers with
            | none, some t => t.limit - t.made
            | _, _ => 1
          chips_available :=
            match my.error, my.chips with
            | none, some cs =>
              (cs.filter (fun c => c.status_for_entry == "available")).map Chip.name
            | _, _ => []
          squad_summary := (get_current_squad_analysis ctx).map mkSquadSummary
          data_quality_warnings := [] }

/-- `validate_data_quality`.  In `main` it runs after the analysis section
is attached to the context, so the analysis presence is passed explicitly
(the second argument models `context.get("analysis", {}).get("current_squad")`). -/
def validate_data_quality (ctx : Context) (analysis : Option SquadAnalysis) :
    List String :=
  (if ctx.my_team.error.isSome then
    ["CRITICAL: Team data unavailable - authentication required for accurate analysis"]
   else []) ++
  (if analysis.isNone then
    ["CRITICAL: Current squad analysis failed - cannot provide transfer recommendations"]
   else []) ++
  (if !ctx.fixtures_this_truthy then ["WARNING: Current gameweek fixtures missing"] else []) ++
  (if ctx.event_finished.isNone then ["INFO: Event status unknown - deadline may have passed"]
   else []) ++
  (if ctx.players.length < 500 then ["WARNING: Player catalog appears incomplete"] else [])

/-! ## The written context document and the two template-variable extractors

`main` serializes the *restructured* context: its top-level keys are
`IMPORTANT_READ_FIRST`, `gameweek_info`, `team_constraints` and
`detailed_data` — in particular there is no top-level `meta` or `team_state`
key.  A context document as seen by an extractor is modelled by which of the
keys the extractors probe are present. -/

/-- The `team_state` subtree as read by the extractors. -/
structure TeamStateDoc where
  my_team : MyTeam
  history_current : Option (List HistEntry)
deriving DecidableEq

/-- A context JSON document, reduced to the top-level keys the two
extraction functions probe.  `irf_summary = some s?` means the top-level
`IMPORTANT_READ_FIRST` key is present with summary `s?` (`s?.isNone` models
the error-shaped summary dict, which lacks the scalar keys);
`meta_gameweek`/`team_state` model the legacy flat top-level keys.  The
restructured documents written by `main` have `irf_summary` present and the
legacy keys absent; pre-restructuring documents have the reverse. -/
structure ContextDoc where
  irf_summary : Option (Option Summary)
  meta_gameweek : Option Int
  team_state : Option TeamStateDoc

/-- The four scalar template variables. -/
structure Variables where
  GW : String
  BANK : String
  FT : String
  CHIPS_AVAILABLE : String
deriving DecidableEq

/-- Outcome of a Python function whose failure mode matters: returned a
value, returned `None` via a caught exception, or let an exception escape. -/
inductive PyOutcome (α : Type) where
  | ok (a : α)
  | caught
  | raised
deriving DecidableEq

/-- `extract_prompt_variables` (pipeline entry point).  Prefers the
restructured shape (presence check on `IMPORTANT_READ_FIRST`), falls back to
the legacy flat shape.  A `KeyError` (missing key anywhere on the probed
paths) is caught and turned into `None` (`.caught`); an `IndexError` from
`history["current"][-1]` on an empty list is *not* caught by the
`except KeyError` clause (`.raised`). -/
def extract_prompt_variables (d : ContextDoc) : PyOutcome Variables :=
  match d.irf_summary with
  | some none => .caught
  | some (some s) =>
    .ok { GW := toString s.gameweek
          BANK := fmt1 s.bank_available
          FT := toString s.free_transfers
          CHIPS_AVAILABLE :=
            if s.chips_available.isEmpty then "None available"
            else String.intercalate ", " s.chips_available }
  | none =>
    match d.meta_gameweek with
    | none => .caught
    | some gw =>
      match d.team_state with
      | none => .caught
      | some ts =>
        match ts.history_current with
        | none => .caught
        | some hist =>
          match hist.getLast? with
          | none => .raised
          | some h =>
            let my := ts.my_team
            let ft : Int :=
              match my.error, my.transfers with
              | none, some t => t.limit - t.made
              | _, _ => 1
            let chips : List String :=
              match my.error, my.chips with
              | none, some cs =>
                (cs.filter (fun c => c.status_for_entry == "available")).map Chip.name
              | _, _ => []
            .ok { GW := toString gw
                  BANK := fmt1 (qdiv10 h.bank)
                  FT := toString ft
                  CHIPS_AVAILABLE :=
                    if chips.isEmpty then "None available"
                    else String.intercalate ", " chips }

/-- `extract_data_from_context` (companion entry point,
`populate_prompt.py`).  It probes only the legacy flat shape
(`context["meta"]`, `context["team_state"]["my_team"]["transfers"]`,
`...["chips"]`) and has no exception handling: `none` models an uncaught
`KeyError` (the script aborts before producing a populated template). -/
def extract_data_from_context (d : ContextDoc) : Option Variables :=
  match d.meta_gameweek with
  | none => none
  | some gw =>
    match d.team_state with
    | none => none
    | some ts =>
      match ts.my_team.transfers with
      | none => none
      | some t =>
        match ts.my_team.chips with
        | none => none
        | some cs =>
          let avail := (cs.filter (fun c => c.status_for_entry == "available")).map Chip.name
          some { GW := toString gw
                 BANK := fmt1 (qdiv10 t.bank)
                 FT := toString (t.limit - t.made)
                 CHIPS_AVAILABLE :=
                   if avail.isEmpty then "None" else String.intercalate ", " avail }

/-- The restructuring pass at the end of `main`: the document written to
`context.json`.  The summary gains the data-quality warnings; the legacy
top-level keys are absent (`meta` moves under `gameweek_info`, `team_state`
under `detailed_data`, neither of which any embedded reader consumes). -/
def restructure (ctx : Context) : ContextDoc :=
  let sa := get_current_squad_analysis ctx
  let warnings := validate_data_quality ctx sa
  { irf_summary := some ((create_summary_section ctx).map
      (fun s => { s with data_quality_warnings := warnings }))
    meta_gameweek := none
    team_state := none }

/-- The summary scalar `free_transfers` of a written document (projection
used to state claims without comparing whole summaries). -/
def docFreeTransfers (d : ContextDoc) : Option Int :=
  match d.irf_summary with
  | some (some s) => some s.free_transfers
  | _ => none

/-- The data-quality warning list of a written document. -/
def docWarnings (d : ContextDoc) : List String :=
  match d.irf_summary with
  | some (some s) => s.data_quality_warnings
  | _ => []

/-! ## Characterization of the fixture-difficulty accumulator -/

/-- Total contribution of an event list to one team id. -/
def eventSum (ev : List (Nat × Int)) (tid : Nat) : Int :=
  ((ev.filter (fun e => e.1 == tid)).map (fun e => e.2)).sum

/-- Number of contributions of an event list to one team id. -/
def eventCount (ev : List (Nat × Int)) (tid : Nat) : Nat :=
  (ev.filter (fun e => e.1 == tid)).length

/-! ## Derived quantities used in claim statements -/

/-- The bank the advisor works with: the binary64 result of dividing the
latest history entry's `bank` by `10.0` (`0` when unavailable — the advisor
then returns no suggestions anyway). -/
def bankOf (ctx : Context) : ℚ :=
  match ctx.history_current with
  | some hist =>
    match hist.getLast? with
    | some h => fl (qdiv10 h.bank)
    | none => 0
  | none => 0

/-- The analyzed squad's occupancy of a club name (`0` when the analysis is
unavailable). -/
def squadClubCount (ctx : Context) (nm : String) : Nat :=
  match get_current_squad_analysis ctx with
  | some sa => sa.club_counts nm
  | none => 0

/-- The occupancy of the incoming player's club after carrying out a
suggested swap: unchanged when the outgoing player is from the same club,
one more otherwise. -/
def postSwapOcc (ctx : Context) (s : Suggestion) : Nat :=
  if s.in_team = s.out_team then squadClubCount ctx s.in_team
  else squadClubCount ctx s.in_team + 1

/-! ## Example inputs used by the claim theorems -/

/-- A catalog player with the given id, club, cost (tenths), position
category, display name and projected points; remaining metrics null. -/
def samplePlayer (pid team : Nat) (cost : Int) (etype : Nat) (nm : String)
    (ep : Option ℚ) : Player :=
  { id := pid, web_name := nm, first_name := nm, second_name := nm, team := team,
    now_cost := cost, element_type := etype, status := "a",
    chance_of_playing_next_round := none, ep_next := ep, ep_this := none,
    minutes := none, form := none, ict_index := none, selected_by_percent := none,
    expected_goals_per_90 := none, expected_assists_per_90 := none }

/-- A non-captain starting pick. -/
def samplePick (el pos etype : Nat) (sell : Int) : Pick :=
  { element := el, position := pos, element_type := etype, is_captain := false,
    is_vice_captain := false, multiplier := 1, selling_price := sell }

/-- Authenticated context whose written document C1 examines: bank 2.3,
two free transfers, one available chip. -/
def ctx1 : Context :=
  { gameweek := 7, event_finished := some true, players := [], teams := [],
    my_team := { error := none, picks := some [], transfers := some ⟨15, 2, 0⟩,
                 chips := some [⟨"wildcard", "available"⟩, ⟨"bboost", "played"⟩] },
    history_current := some [⟨23⟩], fixtures_this_truthy := true, fixtures_next6 := [] }

/-- Authenticated context for the C2 counterexample. -/
def ctx2 : Context :=
  { gameweek := 4, event_finished := some true, players := [], teams := [],
    my_team := { error := none, picks := some [], transfers := some ⟨30, 2, 1⟩,
                 chips := some [] },
    history_current := some [⟨30⟩], fixtures_this_truthy := true, fixtures_next6 := [] }

/-- A summary as found in a restructured document. -/
def sum9 : Summary :=
  { gameweek := 9, authentication_status := "authenticated", bank_available := 1,
    free_transfers := 2, chips_available := [], squad_summary := none,
    data_quality_warnings := [] }

/-- A document carrying *both* the restructured key and the legacy flat keys
(with conflicting values), to exhibit the preference for the restructured
shape. -/
def docPref : ContextDoc :=
  { irf_summary := some (some sum9), meta_gameweek := some 4,
    team_state := some { my_team := { error := none, picks := none,
                                      transfers := some ⟨30, 2, 1⟩, chips := some [] },
                         history_current := some [⟨30⟩] } }

/-- A legacy flat-shape document (as written by pre-restructuring versions
of the pipeline). -/
def legacyDoc2 : ContextDoc :=
  { irf_summary := none, meta_gameweek := some 4,
    team_state := some { my_team := { error := none, picks := none,
                                      transfers := some ⟨30, 2, 1⟩, chips := some [] },
                         history_current := some [⟨30⟩] } }

/-- Context producing exactly one (feasible) suggestion: squad of one
forward, one affordable better-projected replacement. -/
def ctx3 : Context :=
  { gameweek := 3, event_finished := some false,
    players := [samplePlayer 1 1 50 4 "O" (some 1), samplePlayer 2 2 55 4 "N" (some 3)],
    teams := [⟨1, "AAA"⟩, ⟨2, "BBB"⟩],
    my_team := { error := none, picks := some [samplePick 1 11 4 50],
                 transfers := none, chips := none },
    history_current := some [⟨10⟩], fixtures_this_truthy := true, fixtures_next6 := [] }

/-- The one suggestion the advisor emits for `ctx3`. -/
def s3val : Suggestion :=
  { out_player := "O", out_id := 1, in_player := "N", in_id := 2,
    position_type := "FWD", cost_change := mkRat 1 2, ep_improvement := 2,
    out_team := "AAA", in_team := "BBB", feasible := true }

/-- Context on which an emitted suggestion is flagged infeasible: the
outgoing forward sells for 0.3, the bank holds 0.1, and the candidate costs
0.4 — the binary64 sum `0.3 + 0.1` rounds to exactly `0.4`, so the budget
filter admits the candidate, while the binary64 difference `0.4 − 0.3` is
`0.10000000000000003 > 0.1`. -/
def ctx3f : Context :=
  { gameweek := 3, event_finished := some false,
    players := [samplePlayer 1 1 3 4 "O2" none, samplePlayer 2 2 4 4 "N2" (some 2)],
    teams := [⟨1, "AAA"⟩, ⟨2, "BBB"⟩],
    my_team := { error := none, picks := some [samplePick 1 11 4 3],
                 transfers := none, chips := none },
    history_current := some [⟨1⟩], fixtures_this_truthy := true, fixtures_next6 := [] }

/-- The infeasible suggestion the advisor emits for `ctx3f`: its cost delta
is the binary64 value of `0.4 − 0.3`. -/
def s3fval : Suggestion :=
  { out_player := "O2", out_id := 1, in_player := "N2", in_id := 2,
    position_type := "FWD", cost_change := mkRat 1801439850948199 18014398509481984,
    ep_improvement := 2, out_team := "AAA", in_team := "BBB", feasible := false }

/-- Degenerate context for the C4 counterexample: four same-club midfielders
(already violating the 3-per-club limit) and a same-club replacement — the
club check is skipped when the clubs coincide. -/
def ctx4 : Context :=
  { gameweek := 3, event_finished := some false,
    players := [samplePlayer 1 1 50 3 "P1" (some 2), samplePlayer 2 1 50 3 "P2" (some 2),
                samplePlayer 3 1 50 3 "P3" (some 2), samplePlayer 4 1 50 3 "P4" (some 2),
                samplePlayer 5 1 50 3 "P5" (some 9)],
    teams := [⟨1, "AAA"⟩],
    my_team := { error := none,
                 picks := some [samplePick 1 2 3 50, samplePick 2 3 3 50,
                                samplePick 3 4 3 50, samplePick 4 5 3 50],
                 transfers := none, chips := none },
    history_current := some [⟨0⟩], fixtures_this_truthy := true, fixtures_next6 := [] }

/-- The same-club suggestion emitted for `ctx4`. -/
def s4val : Suggestion :=
  { out_player := "P1", out_id := 1, in_player := "P5", in_id := 5,
    position_type := "MID", cost_change := 0, ep_improvement := 7,
    out_team := "AAA", in_team := "AAA", feasible := true }

/-- A small, club-limit-respecting context for the C4 witness. -/
def ctx4w : Context :=
  { gameweek := 3, event_finished := some false,
    players := [samplePlayer 1 1 50 4 "U" (some 1), samplePlayer 2 2 55 4 "V" (some 3)],
    teams := [⟨1, "AAA"⟩, ⟨2, "BBB"⟩],
    my_team := { error := none, picks := some [samplePick 1 11 4 50],
                 transfers := none, chips := none },
    history_current := some [⟨10⟩], fixtures_this_truthy := true, fixtures_next6 := [] }

/-- The suggestion the advisor emits for `ctx4w`. -/
def s4wval : Suggestion :=
  { out_player := "U", out_id := 1, in_player := "V", in_id := 2,
    position_type := "FWD", cost_change := mkRat 1 2, ep_improvement := 2,
    out_team := "AAA", in_team := "BBB", feasible := true }

/-- A restructured-document summary with no available chips (C5). -/
def sum5 : Summary :=
  { gameweek := 3, authentication_status := "authenticated", bank_available := 1,
    free_transfers := 1, chips_available := [], squad_summary := none,
    data_quality_warnings := [] }

/-- A restructured document with no available chips (C5). -/
def doc5 : ContextDoc :=
  { irf_summary := some (some sum5), meta_gameweek := none, team_state := none }

/-- A legacy document whose only chip is not available (C5 companion
witness). -/
def doc5b : ContextDoc :=
  { irf_summary := none, meta_gameweek := some 8,
    team_state := some { my_team := { error := none, picks := none,
                                      transfers := some ⟨12, 1, 0⟩,
                                      chips := some [⟨"wildcard", "played"⟩] },
                         history_current := some [⟨12⟩] } }

/-- Authenticated context with transfer limit 2, made 1 (C6 first
scenario). -/
def ctx6a : Context :=
  { gameweek := 5, event_finished := some true, players := [], teams := [],
    my_team := { error := none, picks := some [], transfers := some ⟨5, 2, 1⟩,
                 chips := some [] },
    history_current := some [⟨20⟩], fixtures_this_truthy := true, fixtures_next6 := [] }

/-- Unauthenticated context (team detail carries the error sentinel, C6
second scenario). -/
def ctx6b : Context :=
  { gameweek := 5, event_finished := some true, players := [], teams := [],
    my_team := { error := some "401", picks := none, transfers := none, chips := none },
    history_current := some [⟨20⟩], fixtures_this_truthy := true, fixtures_next6 := [] }

/-- Context with a tied-`ep_next` pair of midfielders whose catalog order
(player 1 before player 2) disagrees with their lineup order (player 2 at
slot 5, player 1 at slot 7), plus one clear upgrade (C7). -/
def ctx7 : Context :=
  { gameweek := 3, event_finished := some false,
    players := [samplePlayer 1 1 50 3 "A" (some 2), samplePlayer 2 2 50 3 "B" (some 2),
                samplePlayer 3 3 60 3 "C" (some 5)],
    teams := [⟨1, "AAA"⟩, ⟨2, "BBB"⟩, ⟨3, "CCC"⟩],
    my_team := { error := none, picks := some [samplePick 1 7 3 50, samplePick 2 5 3 50],
                 transfers := none, chips := none },
    history_current := some [⟨100⟩], fixtures_this_truthy := true, fixtures_next6 := [] }

/-- The MID-group head for `ctx7` in lineup order: player 2 at slot 5. -/
def c7head : SquadEntry := mkEntry ctx7.teams (samplePick 2 5 3 50)
  (samplePlayer 2 2 50 3 "B" (some 2))

/-- The MID-group tail for `ctx7`: player 1 at slot 7. -/
def c7tail : List SquadEntry := [mkEntry ctx7.teams (samplePick 1 7 3 50)
  (samplePlayer 1 1 50 3 "A" (some 2))]

/-- Two-team window with one home fixture of difficulty 2 and one away
fixture of difficulty 4 for team 1 (C8). -/
def ctx8 : Context :=
  { gameweek := 1, event_finished := some false, players := [],
    teams := [⟨1, "AAA"⟩, ⟨2, "BBB"⟩],
    my_team := { error := some "auth", picks := none, transfers := none, chips := none },
    history_current := some [⟨0⟩], fixtures_this_truthy := true,
    fixtures_next6 := [some ⟨some 1, 1, 2, some 2, some 5⟩,
                       some ⟨some 2, 2, 1, some 2, some 4⟩] }

/-- Error-sentinel context for the C9 witness. -/
def ctx9e : Context :=
  { gameweek := 2, event_finished := some true, players := [], teams := [],
    my_team := { error := some "timeout", picks := none, transfers := none, chips := none },
    history_current := some [⟨0⟩], fixtures_this_truthy := true, fixtures_next6 := [] }

/-- One-player catalog for the C9 witness. -/
def players9 : List Player := [samplePlayer 1 1 50 3 "A" (some 2)]

/-- One-team list for the C9 witness. -/
def teams9 : List Team := [⟨1, "AAA"⟩]

/-- A pick whose player id (99) does not resolve in `players9`. -/
def badPick9 : Pick := samplePick 99 3 3 50

/-- Context for the C10 witness. -/
def ctx10 : Context :=
  { gameweek := 6, event_finished := some false,
    players := [samplePlayer 3 1 44 2 "D" none],
    teams := [⟨1, "AAA"⟩],
    my_team := { error := none, picks := some [samplePick 3 4 2 40],
                 transfers := none, chips := none },
    history_current := some [⟨5⟩], fixtures_this_truthy := true, fixtures_next6 := [] }

/-- The analyzed entry for `ctx10`: null metrics default to `0`. -/
def e10 : SquadEntry := mkEntry ctx10.teams (samplePick 3 4 2 40)
  (samplePlayer 3 1 44 2 "D" none)

theorem qadd_eq (a b : ℚ) : qadd a b = a + b := by
  rw [qadd, Rat.mkRat_eq_div]
  have ha : (a.den : ℚ) ≠ 0 := by exact_mod_cast a.den_nz
  have hb : (b.den : ℚ) ≠ 0 := by exact_mod_cast b.den_nz
  rw [show a + b = a.num / a.den + b.num / b.den by rw [Rat.num_div_den, Rat.num_div_den]]
  push_cast
  field_simp

theorem qsub_eq (a b : ℚ) : qsub a b = a - b := by
  rw [qsub, Rat.mkRat_eq_div]
  have ha : (a.den : ℚ) ≠ 0 := by exact_mod_cast a.den_nz
  have hb : (b.den : ℚ) ≠ 0 := by exact_mod_cast b.den_nz
  rw [show a - b = a.num / a.den - b.num / b.den by rw [Rat.num_div_den, Rat.num_div_den]]
  push_cast
  field_simp
  ring

theorem qdiv10_eq (n : Int) : qdiv10 n = (n : ℚ) / 10 := by
  rw [qdiv10, Rat.mkRat_eq_div]; norm_num

theorem qavg_eq (s : Int) (c : Nat) : qavg s c = (s : ℚ) / (c : ℚ) := by
  rw [qavg, Rat.mkRat_eq_div]

theorem mem_insStable (le : α → α → Bool) (x a : α) (l : List α) :
    a ∈ insStable le x l ↔ a = x ∨ a ∈ l := by
  induction l with
  | nil => simp [insStable]
  | cons y ys ih =>
    simp only [insStable]
    by_cases h : le y x = true
    · simp [h, ih]
      try tauto
    · simp [h]
      try tauto

theorem mem_pysort (le : α → α → Bool) (l : List α) (a : α) :
    a ∈ pysort le l ↔ a ∈ l := by
  suffices h : ∀ acc, a ∈ l.foldl (fun acc x => insStable le x acc) acc ↔ a ∈ acc ∨ a ∈ l by
    simpa [pysort] using h []
  induction l with
  | nil => simp
  | cons y ys ih =>
    intro acc
    simp only [List.foldl_cons, ih, mem_insStable, List.mem_cons]
    tauto

theorem insStable_pairwise (le : α → α → Bool)
    (htot : ∀ a b, le a b = true ∨ le b a = true)
    (htrans : ∀ a b c, le a b = true → le b c = true → le a c = true)
    (x : α) (l : List α) (hl : l.Pairwise (fun a b => le a b = true)) :
    (insStable le x l).Pairwise (fun a b => le a b = true) := by
  induction l with
  | nil => simp [insStable]
  | cons y ys ih =>
    rw [List.pairwise_cons] at hl
    by_cases h : le y x = true
    · simp only [insStable, h, if_pos]
      rw [List.pairwise_cons]
      refine ⟨?_, ih hl.2⟩
      intro b hb
      rcases (mem_insStable le x b ys).mp hb with hbx | hby
      · exact hbx ▸ h
      · exact hl.1 b hby
    · simp only [insStable, h, if_neg, Bool.not_eq_true]
      rw [List.pairwise_cons]
      have hxy : le x y = true := by
        rcases htot x y with h1 | h1
        · exact h1
        · exact absurd h1 (by simpa using h)
      refine ⟨?_, List.pairwise_cons.mpr hl⟩
      intro b hb
      rcases List.mem_cons.mp hb with hby | hbys
      · exact hby ▸ hxy
      · exact htrans x y b hxy (hl.1 b hbys)

theorem pysort_pairwise (le : α → α → Bool)
    (htot : ∀ a b, le a b = true ∨ le b a = true)
    (htrans : ∀ a b c, le a b = true → le b c = true → le a c = true)
    (l : List α) : (pysort le l).Pairwise (fun a b => le a b = true) := by
  suffices h : ∀ acc, acc.Pairwise (fun a b => le a b = true) →
      (l.foldl (fun acc x => insStable le x acc) acc).Pairwise (fun a b => le a b = true) by
    exact h [] (by simp)
  induction l with
  | nil => intro acc hacc; simpa using hacc
  | cons y ys ih =>
    intro acc hacc
    exact ih _ (insStable_pairwise le htot htrans y acc hacc)

/-! ## Inversion lemmas for the Transfer Advisor -/

theorem candidateSuggestion_eq_some {teams : List Team} {bank : ℚ}
    {clubCounts : String → Nat} {weakest : SquadEntry} {alt : Player} {s : Suggestion}
    (h : candidateSuggestion teams bank clubCounts weakest alt = some s) :
    s.feasible = decide
      (fl (qsub (fl (qdiv10 alt.now_cost)) (fl weakest.selling_price)) ≤ bank) ∧
    s.ep_improvement = fl (qsub (fl (alt.ep_next.getD 0)) (fl weakest.ep_next)) ∧
    mkRat 1 2 < s.ep_improvement ∧
    s.cost_change = fl (qsub (fl (qdiv10 alt.now_cost)) (fl weakest.selling_price)) ∧
    s.in_team = teamNameOf teams alt.team ∧
    s.out_team = weakest.team ∧
    (s.in_team ≠ s.out_team → clubCounts s.in_team + 1 ≤ 3) := by
  unfold candidateSuggestion at h
  split_ifs at h with h1 h2
  all_goals first
    | exact Option.noConfusion h
    | · rw [Option.some_inj] at h
        subst h
        push_neg at h1
        exact ⟨rfl, rfl, h2, rfl, rfl, rfl, fun hne => h1 hne⟩

theorem mem_positionSuggestions {ctx : Context} {sa : SquadAnalysis} {bank : ℚ}
    {squadIds : List Nat} {pos : Nat} {s : Suggestion}
    (hs : s ∈ positionSuggestions ctx sa bank squadIds pos) :
    ∃ c cs alt,
      sa.squad.filter (fun p => p.position_type == position_names pos) = c :: cs ∧
      alt ∈ ctx.players.filter (fun p =>
        p.element_type == pos && !(squadIds.contains p.id) && p.status == "a" &&
        decide (fl (qdiv10 p.now_cost) ≤
          fl (qadd (fl (minByFirst (fun e => e.ep_next) c cs).selling_price) bank))) ∧
      candidateSuggestion ctx.teams bank sa.club_counts
        (minByFirst (fun e => e.ep_next) c cs) alt = some s := by
  unfold positionSuggestions at hs
  rcases hfil : sa.squad.filter (fun p => p.position_type == position_names pos) with
    _ | ⟨c, cs⟩
  · rw [hfil] at hs
    exact absurd hs (by simp)
  · rw [hfil] at hs
    obtain ⟨alt, halt, hcand⟩ := List.mem_filterMap.mp hs
    refine ⟨c, cs, alt, hfil, ?_, hcand⟩
    exact (mem_pysort _ _ alt).mp (List.mem_of_mem_take halt)

theorem mem_suggest_transfers {ctx : Context} {s : Suggestion}
    (hs : s ∈ suggest_transfers ctx) :
    ∃ sa hist h pos,
      get_current_squad_analysis ctx = some sa ∧
      ctx.history_current = some hist ∧
      hist.getLast? = some h ∧
      pos ∈ ([1, 2, 3, 4] : List Nat) ∧
      s ∈ positionSuggestions ctx sa (fl (qdiv10 h.bank))
        (sa.squad.map (fun p => p.element_id)) pos := by
  unfold suggest_transfers at hs
  split at hs
  · exact absurd hs (by simp)
  · rename_i sa hsa
    split at hs
    · exact absurd hs (by simp)
    · rename_i hist hhist
      split at hs
      · exact absurd hs (by simp)
      · rename_i h hlast
        have hmem := (mem_pysort _ _ s).mp (List.mem_of_mem_take hs)
        obtain ⟨pos, hpos, hmem2⟩ := List.mem_flatMap.mp hmem
        exact ⟨sa, hist, h, pos, hsa, hhist, hlast, hpos, hmem2⟩

/-! ## Specification of `minByFirst` (Python's first-minimum `min`) -/

theorem minByFirst_spec (key : α → ℚ) (a : α) (l : List α) :
    minByFirst key a l ∈ a :: l ∧
    (∀ x ∈ a :: l, key (minByFirst key a l) ≤ key x) ∧
    ∃ l1 l2, a :: l = l1 ++ minByFirst key a l :: l2 ∧
      ∀ x ∈ l1, key (minByFirst key a l) < key x := by
  induction l generalizing a with
  | nil =>
    refine ⟨List.mem_cons_self _ _, ?_, [], [], rfl, by simp⟩
    intro x hx
    rcases List.mem_cons.mp hx with rfl | hx2
    · exact le_refl _
    · exact absurd hx2 (List.not_mem_nil x)
  | cons x xs ih =>
    by_cases hx : key x < key a
    · have hstep : minByFirst key a (x :: xs) = minByFirst key x xs := by
        simp only [minByFirst, if_pos hx]
      obtain ⟨hmem, hmin, l1, l2, hsplit, hfirst⟩ := ih x
      rw [hstep]
      have hmx : key (minByFirst key x xs) ≤ key x := hmin x (List.mem_cons_self _ _)
      refine ⟨List.mem_cons_of_mem a hmem, ?_, a :: l1, l2, ?_, ?_⟩
      · intro y hy
        rcases List.mem_cons.mp hy with rfl | hy2
        · exact le_of_lt (lt_of_le_of_lt hmx hx)
        · exact hmin y hy2
      · rw [List.cons_append, ← hsplit]
      · intro y hy
        rcases List.mem_cons.mp hy with rfl | hy2
        · exact lt_of_le_of_lt hmx hx
        · exact hfirst y hy2
    · have hstep : minByFirst key a (x :: xs) = minByFirst key a xs := by
        simp only [minByFirst, if_neg hx]
      obtain ⟨hmem, hmin, l1, l2, hsplit, hfirst⟩ := ih a
      rw [hstep]
      have hax : key a ≤ key x := le_of_not_lt hx
      have hma : key (minByFirst key a xs) ≤ key a := hmin a (List.mem_cons_self _ _)
      refine ⟨?_, ?_, ?_⟩
      · rcases List.mem_cons.mp hmem with heq | hm2
        · rw [heq]
          exact List.mem_cons_self _ _
        · exact List.mem_cons_of_mem a (List.mem_cons_of_mem x hm2)
      · intro y hy
        rcases List.mem_cons.mp hy with rfl | hy2
        · exact hma
        · rcases List.mem_cons.mp hy2 with rfl | hy3
          · exact le_trans hma hax
          · exact hmin y (List.mem_cons_of_mem a hy3)
      · rcases l1 with _ | ⟨b, l1t⟩
        · rw [List.nil_append] at hsplit
          injection hsplit with h1 h2
          refine ⟨[], x :: xs, ?_, by simp⟩
          rw [List.nil_append, ← h1]
        · rw [List.cons_append] at hsplit
          injection hsplit with h1 h2
          have hba : key (minByFirst key a xs) < key b := hfirst b (List.mem_cons_self _ _)
          refine ⟨b :: x :: l1t, l2, ?_, ?_⟩
          · rw [List.cons_append, List.cons_append, ← h2, ← h1]
          · intro y hy
            rcases List.mem_cons.mp hy with rfl | hy2
            · exact hba
            · rcases List.mem_cons.mp hy2 with rfl | hy3
              · calc key (minByFirst key a xs) < key b := hba
                  _ = key a := by rw [← h1]
                  _ ≤ key y := hax
              · exact hfirst y (List.mem_cons_of_mem b hy3)

theorem lookupId_bumpTeam_eq (tid : Nat) (d : Int) (acc : List (Nat × Int × Nat)) :
    lookupId tid (bumpTeam tid d acc) =
      some (match lookupId tid acc with
            | some sc => (sc.1 + d, sc.2 + 1)
            | none => (d, 1)) := by
  induction acc with
  | nil => simp [bumpTeam, lookupId]
  | cons e rest ih =>
    by_cases he : e.1 = tid
    · simp [bumpTeam, lookupId, he, List.find?]
    · simp only [bumpTeam, he, if_neg, not_false_iff]
      have hne : (e.1 == tid) = false := by simpa using he
      simp [lookupId, List.find?, hne] at ih ⊢
      exact ih

theorem lookupId_bumpTeam_ne {t tid : Nat} (d : Int) (acc : List (Nat × Int × Nat))
    (h : t ≠ tid) : lookupId tid (bumpTeam t d acc) = lookupId tid acc := by
  induction acc with
  | nil =>
    have hne : (t == tid) = false := by simpa using h
    simp [bumpTeam, lookupId, List.find?, hne]
  | cons e rest ih =>
    have hbt : (t == tid) = false := by simpa using h
    by_cases he : e.1 = t
    · have hne : (e.1 == tid) = false := by simp [he]; exact h
      simp [bumpTeam, lookupId, List.find?, he, hne, hbt]
    · simp only [bumpTeam, he, if_neg, not_false_iff]
      by_cases hetid : e.1 = tid
      · simp [lookupId, List.find?, hetid]
      · have hne2 : (e.1 == tid) = false := by simpa using hetid
        simp [lookupId, List.find?, hne2] at ih ⊢
        exact ih

theorem lookupId_foldl_bump (ev : List (Nat × Int)) :
    ∀ (acc : List (Nat × Int × Nat)) (tid : Nat),
      lookupId tid (ev.foldl (fun a e => bumpTeam e.1 e.2 a) acc) =
        match lookupId tid acc with
        | some sc => some (sc.1 + eventSum ev tid, sc.2 + eventCount ev tid)
        | none =>
          if eventCount ev tid = 0 then none
          else some (eventSum ev tid, eventCount ev tid) := by
  induction ev with
  | nil =>
    intro acc tid
    rw [List.foldl_nil]
    rcases h : lookupId tid acc with _ | sc
    · simp [h, eventSum, eventCount]
    · simp [h, eventSum, eventCount]
  | cons e ev ih =>
    intro acc tid
    rw [List.foldl_cons]
    by_cases he : e.1 = tid
    · have hbe : (e.1 == tid) = true := by simpa using he
      have hsum : eventSum (e :: ev) tid = e.2 + eventSum ev tid := by
        simp [eventSum, hbe]
      have hcount : eventCount (e :: ev) tid = 1 + eventCount ev tid := by
        simp [eventCount, hbe]
        omega
      subst he
      rw [ih (bumpTeam e.1 e.2 acc) e.1, lookupId_bumpTeam_eq e.1 e.2 acc]
      rcases h : lookupId e.1 acc with _ | sc
      · simp only [h, hsum, hcount]
        rw [if_neg (by omega)]
      · simp only [h, hsum, hcount, Option.some_inj, Prod.mk.injEq]
        exact ⟨by omega, by omega⟩
    · have hbe : (e.1 == tid) = false := by simpa using he
      have hsum : eventSum (e :: ev) tid = eventSum ev tid := by simp [eventSum, hbe]
      have hcount : eventCount (e :: ev) tid = eventCount ev tid := by simp [eventCount, hbe]
      rw [ih (bumpTeam e.1 e.2 acc) tid, lookupId_bumpTeam_ne e.2 acc he, hsum, hcount]

theorem eventSum_append (ev1 ev2 : List (Nat × Int)) (tid : Nat) :
    eventSum (ev1 ++ ev2) tid = eventSum ev1 tid + eventSum ev2 tid := by
  simp [eventSum, List.filter_append]

theorem eventCount_append (ev1 ev2 : List (Nat × Int)) (tid : Nat) :
    eventCount (ev1 ++ ev2) tid = eventCount ev1 tid + eventCount ev2 tid := by
  simp [eventCount, List.filter_append]

theorem eventSum_fixtureEvents (f : Fixture) (tid : Nat) :
    eventSum (fixtureEvents f) tid =
      (if f.team_h = tid then f.team_h_difficulty.getD 3 else 0) +
      (if f.team_a = tid then f.team_a_difficulty.getD 3 else 0) := by
  by_cases h1 : f.team_h = tid <;> by_cases h2 : f.team_a = tid <;>
    simp [fixtureEvents, eventSum, h1, h2]

theorem eventCount_fixtureEvents (f : Fixture) (tid : Nat) :
    eventCount (fixtureEvents f) tid =
      (if f.team_h = tid then 1 else 0) + (if f.team_a = tid then 1 else 0) := by
  by_cases h1 : f.team_h = tid <;> by_cases h2 : f.team_a = tid <;>
    simp [fixtureEvents, eventCount, h1, h2]

theorem eventSum_flatMap (l : List Fixture) (tid : Nat) :
    eventSum (l.flatMap fixtureEvents) tid =
      (l.map (fun f =>
        (if f.team_h = tid then f.team_h_difficulty.getD 3 else 0) +
        (if f.team_a = tid then f.team_a_difficulty.getD 3 else 0))).sum := by
  induction l with
  | nil => simp [eventSum]
  | cons f fs ih =>
    rw [List.flatMap_cons, eventSum_append, eventSum_fixtureEvents, List.map_cons,
      List.sum_cons, ih]

theorem eventCount_flatMap (l : List Fixture) (tid : Nat) :
    eventCount (l.flatMap fixtureEvents) tid =
      (l.map (fun f =>
        (if f.team_h = tid then 1 else 0) + (if f.team_a = tid then 1 else 0))).sum := by
  induction l with
  | nil => simp [eventCount]
  | cons f fs ih =>
    rw [List.flatMap_cons, eventCount_append, eventCount_fixtureEvents, List.map_cons,
      List.sum_cons, ih]

/-- The accumulator dictionary holds exactly the teams with at least one
contributing fixture, with their difficulty total and fixture count. -/
theorem fixtureAccum_lookup (ctx : Context) (tid : Nat) :
    lookupId tid (fixtureAccum ctx) =
      if teamFixtureCount ctx tid = 0 then none
      else some (teamDifficultySum ctx tid, teamFixtureCount ctx tid) := by
  have h := lookupId_foldl_bump ((recognizedFixtures ctx).flatMap fixtureEvents) [] tid
  have hnil : lookupId tid ([] : List (Nat × Int × Nat)) = none := by
    simp [lookupId]
  rw [hnil] at h
  rw [fixtureAccum, h, eventSum_flatMap, eventCount_flatMap]
  rfl

theorem bumpTeam_pos {acc : List (Nat × Int × Nat)} (h : ∀ e ∈ acc, 0 < e.2.2)
    (t : Nat) (d : Int) : ∀ e ∈ bumpTeam t d acc, 0 < e.2.2 := by
  induction acc with
  | nil =>
    intro e he
    rcases List.mem_cons.mp he with rfl | he2
    · simp
    · exact absurd he2 (List.not_mem_nil e)
  | cons a rest ih =>
    intro e he
    by_cases ha : a.1 = t
    · simp only [bumpTeam, ha, if_pos] at he
      rcases List.mem_cons.mp he with rfl | he2
      · simp
      · exact h e (List.mem_cons_of_mem a he2)
    · simp only [bumpTeam, ha, if_neg, not_false_iff] at he
      rcases List.mem_cons.mp he with rfl | he2
      · exact h e (List.mem_cons_self _ _)
      · exact ih (fun e2 he2 => h e2 (List.mem_cons_of_mem a he2)) e he2

theorem fixtureAccum_pos (ctx : Context) : ∀ e ∈ fixtureAccum ctx, 0 < e.2.2 := by
  rw [fixtureAccum]
  generalize (recognizedFixtures ctx).flatMap fixtureEvents = ev
  suffices h : ∀ (acc : List (Nat × Int × Nat)), (∀ e ∈ acc, 0 < e.2.2) →
      ∀ e ∈ ev.foldl (fun a e => bumpTeam e.1 e.2 a) acc, 0 < e.2.2 by
    exact h [] (by simp)
  induction ev with
  | nil => intro acc hacc; simpa using hacc
  | cons x xs ih =>
    intro acc hacc
    rw [List.foldl_cons]
    exact ih _ (bumpTeam_pos hacc x.1 x.2)

theorem upsertName_not_mem {k : String} {res : List (String × ℚ × Nat)}
    (h : k ∉ res.map Prod.fst) (v : ℚ × Nat) :
    upsertName k v res = res ++ [(k, v)] := by
  induction res with
  | nil => rfl
  | cons e rest ih =>
    have hk : ¬(e.1 = k) := by
      intro heq
      exact h (by simp [heq])
    simp only [upsertName, hk, if_neg, not_false_iff, List.cons_append]
    rw [ih (fun hmem => h (by simp [hmem]))]

theorem fixtures_result_foldl (ctx : Context) :
    ∀ (l : List (Nat × Int × Nat)) (res : List (String × ℚ × Nat)),
      l.Pairwise (fun a b => teamNameOf ctx.teams a.1 ≠ teamNameOf ctx.teams b.1) →
      (∀ e ∈ l, teamNameOf ctx.teams e.1 ∉ res.map Prod.fst) →
      (∀ e ∈ l, 0 < e.2.2) →
      l.foldl (fun r e =>
        if 0 < e.2.2 then
          upsertName (teamNameOf ctx.teams e.1) (rnd2 (qavg e.2.1 e.2.2), e.2.2) r
        else r) res =
      res ++ l.map (fun e => (teamNameOf ctx.teams e.1, rnd2 (qavg e.2.1 e.2.2), e.2.2)) := by
  intro l
  induction l with
  | nil => intro res _ _ _; simp
  | cons e l ih =>
    intro res hpair hres hpos
    rw [List.foldl_cons, if_pos (hpos e (List.mem_cons_self _ _)),
      upsertName_not_mem (hres e (List.mem_cons_self _ _)) _]
    rw [List.pairwise_cons] at hpair
    rw [ih (res ++ [(teamNameOf ctx.teams e.1, rnd2 (qavg e.2.1 e.2.2), e.2.2)]) hpair.2 ?_ ?_]
    · simp
    · intro e2 he2
      rw [List.map_append]
      intro hmem
      rcases List.mem_append.mp hmem with hm | hm
      · exact hres e2 (List.mem_cons_of_mem e he2) hm
      · have heq : teamNameOf ctx.teams e2.1 = teamNameOf ctx.teams e.1 := by
          simpa using hm
        exact hpair.1 e2 he2 heq.symm
    · exact fun e2 he2 => hpos e2 (List.mem_cons_of_mem e he2)

/-- Under injective team naming, the output dictionary of the fixture
estimator is exactly the accumulator re-keyed by team name, with rounded
averages. -/
theorem calculate_fixtures_difficulty_eq (ctx : Context)
    (hinj : (fixtureAccum ctx).Pairwise (fun a b =>
      teamNameOf ctx.teams a.1 ≠ teamNameOf ctx.teams b.1)) :
    calculate_fixtures_difficulty ctx = (fixtureAccum ctx).map
      (fun e => (teamNameOf ctx.teams e.1, rnd2 (qavg e.2.1 e.2.2), e.2.2)) := by
  rw [calculate_fixtures_difficulty,
    fixtures_result_foldl ctx (fixtureAccum ctx) [] hinj (by simp) (fixtureAccum_pos ctx)]
  simp

/-! ## Squad Analyzer lemmas -/

theorem resolvePicks_skip (players : List Player) (l1 l2 : List Pick) (bad : Pick)
    (h : build_player_lookup players bad.element = none) :
    resolvePicks players (l1 ++ bad :: l2) = resolvePicks players (l1 ++ l2) := by
  simp [resolvePicks, List.filterMap_append, List.filterMap_cons, h]

theorem squadAnalysisOfPicks_skip (players : List Player) (teams : List Team)
    (l1 l2 : List Pick) (bad : Pick)
    (h : build_player_lookup players bad.element = none) :
    squadAnalysisOfPicks players teams (l1 ++ bad :: l2) =
      squadAnalysisOfPicks players teams (l1 ++ l2) := by
  unfold squadAnalysisOfPicks squadEntries
  rw [resolvePicks_skip players l1 l2 bad h]

/-- Every entry of the analyzed squad comes from a resolved catalog player,
with `0` substituted for a null/empty `ep_next`, `form` and `ict_index`. -/
theorem squad_entry_resolved {players : List Player} {teams : List Team}
    {picks : List Pick} {e : SquadEntry}
    (he : e ∈ (squadAnalysisOfPicks players teams picks).squad) :
    ∃ p : Player, build_player_lookup players e.element_id = some p ∧
      e.ep_next = p.ep_next.getD 0 ∧
      e.form = p.form.getD 0 ∧
      e.ict_index = p.ict_index.getD 0 ∧
      e.cost = qdiv10 p.now_cost ∧
      e.status = p.status := by
  have he2 : e ∈ squadEntries players teams picks :=
    (mem_pysort (fun (a b : SquadEntry) => decide (a.position ≤ b.position))
      (squadEntries players teams picks) e).mp he
  obtain ⟨pp, hpp, hmk⟩ := List.mem_map.mp he2
  obtain ⟨pk, _hpk, hval⟩ := List.mem_filterMap.mp hpp
  obtain ⟨p, hlook, hpair⟩ := Option.map_eq_some'.mp hval
  refine ⟨p, ?_, ?_, ?_, ?_, ?_, ?_⟩
  · rw [← hmk]
    rw [← hpair] at *
    simpa [mkEntry] using hlook
  all_goals rw [← hmk, ← hpair]
  all_goals simp [mkEntry]

/-- The analyzed squad list is sorted by lineup position (ascending). -/
theorem squad_sorted_by_position (players : List Player) (teams : List Team)
    (picks : List Pick) :
    (squadAnalysisOfPicks players teams picks).squad.Pairwise
      (fun a b => a.position ≤ b.position) := by
  have h := pysort_pairwise (fun (a b : SquadEntry) => decide (a.position ≤ b.position))
    (fun a b => by
      rcases Nat.le_total a.position b.position with h1 | h1
      · exact Or.inl (decide_eq_true h1)
      · exact Or.inr (decide_eq_true h1))
    (fun a b c h1 h2 => decide_eq_true (Nat.le_trans (of_decide_eq_true h1) (of_decide_eq_true h2)))
    (squadEntries players teams picks)
  exact h.imp (fun hab => of_decide_eq_true hab)

/-! ## Claim theorems -/

/-- C1: the spec's round-trip property — loading a context document written
by the full pipeline and re-running only the companion Template Populator
must reproduce the pipeline's populated template — fails on the code: the
pipeline writes the restructured shape (no top-level `meta`), so the
companion's `context_data["meta"]` raises an uncaught `KeyError` on *every*
written document and produces no populated template at all, while the
pipeline itself extracts the variables fine (shown on the concrete
authenticated context `ctx1`). -/
theorem C1_roundtrip_fails_on_written_context :
    (∀ ctx : Context, extract_data_from_context (restructure ctx) = none) ∧
    extract_prompt_variables (restructure ctx1) =
      PyOutcome.ok { GW := "7", BANK := "2.3", FT := "2", CHIPS_AVAILABLE := "wildcard" } := by
  exact ⟨fun ctx => rfl, by decide⟩

/-- C2 counterexample: the claim says *both* entry points handle both
context shapes; but on the restructured document the pipeline writes for
`ctx2`, the companion's extraction raises (modelled `none`) while the
pipeline's own extraction succeeds. -/
theorem C2_cex_companion_rejects_restructured_shape :
    extract_prompt_variables (restructure ctx2) =
      PyOutcome.ok { GW := "4", BANK := "3.0", FT := "1",
                     CHIPS_AVAILABLE := "None available" } ∧
    extract_data_from_context (restructure ctx2) = none := by
  exact ⟨by decide, rfl⟩

/-- C2 amended: the *pipeline* entry point's extraction handles both shapes,
selecting the restructured shape by a presence check on the top-level
`IMPORTANT_READ_FIRST` key and preferring it whenever present (even when the
legacy keys are also present); the *companion* entry point handles only the
legacy flat shape — on any document without a top-level `meta` key it raises
instead of extracting. -/
theorem C2_amended_shape_handling :
    (∀ (d : ContextDoc) (s : Summary), d.irf_summary = some (some s) →
      extract_prompt_variables d = PyOutcome.ok
        { GW := toString s.gameweek, BANK := fmt1 s.bank_available,
          FT := toString s.free_transfers,
          CHIPS_AVAILABLE := if s.chips_available.isEmpty then "None available"
            else String.intercalate ", " s.chips_available }) ∧
    (∀ (d : ContextDoc) (gw : Int) (ts : TeamStateDoc) (hist : List HistEntry)
        (h : HistEntry),
      d.irf_summary = none → d.meta_gameweek = some gw → d.team_state = some ts →
      ts.history_current = some hist → hist.getLast? = some h →
      ∃ v, extract_prompt_variables d = PyOutcome.ok v ∧
        v.GW = toString gw ∧ v.BANK = fmt1 (qdiv10 h.bank)) ∧
    (∀ d : ContextDoc, d.meta_gameweek = none → extract_data_from_context d = none) := by
  refine ⟨?_, ?_, ?_⟩
  · intro d s h
    unfold extract_prompt_variables
    rw [h]
  · intro d gw ts hist h h1 h2 h3 h4 h5
    simp only [extract_prompt_variables, h1, h2, h3, h4, h5]
    exact ⟨_, rfl, rfl, rfl⟩
  · intro d h
    unfold extract_data_from_context
    rw [h]

/-- C2 witness: the amended behavior at concrete documents — a document
carrying both shapes is read from the restructured summary, a legacy
document is read from its flat keys, and the companion fails on a written
(restructured) document. -/
theorem C2_witness :
    extract_prompt_variables docPref = PyOutcome.ok
      { GW := toString sum9.gameweek, BANK := fmt1 sum9.bank_available,
        FT := toString sum9.free_transfers,
        CHIPS_AVAILABLE := if sum9.chips_available.isEmpty then "None available"
          else String.intercalate ", " sum9.chips_available } ∧
    (∃ v, extract_prompt_variables legacyDoc2 = PyOutcome.ok v ∧
      v.GW = toString (4 : Int) ∧ v.BANK = fmt1 (qdiv10 30)) ∧
    extract_data_from_context (restructure ctx2) = none :=
  ⟨C2_amended_shape_handling.1 docPref sum9 rfl,
   C2_amended_shape_handling.2.1 legacyDoc2 4
     { my_team := { error := none, picks := none, transfers := some ⟨30, 2, 1⟩,
                    chips := some [] },
       history_current := some [⟨30⟩] } [⟨30⟩] ⟨30⟩ rfl rfl rfl rfl rfl,
   C2_amended_shape_handling.2.2 (restructure ctx2) rfl⟩

/-- C3: every suggestion emitted by the Transfer Advisor carries a
feasibility flag equal to the comparison (cost delta ≤ bank) of the binary64
values the program computes; and a suggestion may indeed be emitted but
marked infeasible: on `ctx3f` (selling price 0.3, bank 0.1, candidate cost
0.4) the candidate passes the budget filter because the float sum
`0.3 + 0.1` rounds to exactly `0.4`, while the float difference `0.4 − 0.3`
exceeds `0.1`, so the advisor emits the suggestion with `feasible = false`. -/
theorem C3_feasibility_flag_and_infeasible_emission :
    (∀ (ctx : Context) (s : Suggestion), s ∈ suggest_transfers ctx →
      (s.feasible = true ↔ s.cost_change ≤ bankOf ctx)) ∧
    ∃ s : Suggestion, s ∈ suggest_transfers ctx3f ∧ s.feasible = false := by
  constructor
  · intro ctx s hs
    obtain ⟨sa, hist, h, pos, hsa, hhist, hlast, hpos, hmem⟩ := mem_suggest_transfers hs
    obtain ⟨c, cs, alt, hfil, halt, hcand⟩ := mem_positionSuggestions hmem
    obtain ⟨hfe, -, -, hcc, -, -, -⟩ := candidateSuggestion_eq_some hcand
    have hbank : bankOf ctx = fl (qdiv10 h.bank) := by
      simp only [bankOf, hhist, hlast]
    rw [hfe, hcc, hbank]
    exact decide_eq_true_iff
  · exact ⟨s3fval, by decide, by decide⟩

/-- C3 witness: the flag equality at the concrete context `ctx3` and its one
(feasible) emitted suggestion. -/
theorem C3_witness :
    s3val.feasible = true ↔ s3val.cost_change ≤ bankOf ctx3 :=
  C3_feasibility_flag_and_infeasible_emission.1 ctx3 s3val (by decide)

/-- C4 counterexample: the claim quantifies over *every* input context, but
the club-limit check is skipped when the incoming player's club equals the
outgoing player's; on a degenerate squad that already has four players of
one club, the advisor emits a same-club swap whose post-swap occupancy is 4. -/
theorem C4_cex_club_limit_exceeded :
    ∃ s : Suggestion, s ∈ suggest_transfers ctx4 ∧ 3 < postSwapOcc ctx4 s :=
  ⟨s4val, by decide, by decide⟩

/-- C4 amended: for every context whose analyzed squad already respects the
3-per-club limit, no emitted suggestion pushes the incoming club's post-swap
occupancy above 3 (for differing clubs the check enforces it, for equal
clubs the occupancy is unchanged), and every emitted suggestion's projected
improvement strictly exceeds 0.5. -/
theorem C4_amended_club_and_threshold (ctx : Context) (s : Suggestion)
    (hs : s ∈ suggest_transfers ctx)
    (hsquad : ∀ nm : String, squadClubCount ctx nm ≤ 3) :
    postSwapOcc ctx s ≤ 3 ∧ mkRat 1 2 < s.ep_improvement := by
  obtain ⟨sa, hist, h, pos, hsa, hhist, hlast, hpos, hmem⟩ := mem_suggest_transfers hs
  obtain ⟨c, cs, alt, hfil, halt, hcand⟩ := mem_positionSuggestions hmem
  obtain ⟨-, -, hep, -, -, -, hclub⟩ := candidateSuggestion_eq_some hcand
  refine ⟨?_, hep⟩
  have hscc : squadClubCount ctx s.in_team = sa.club_counts s.in_team := by
    simp only [squadClubCount, hsa]
  unfold postSwapOcc
  by_cases heq : s.in_team = s.out_team
  · rw [if_pos heq]
    exact hsquad _
  · rw [if_neg heq, hscc]
    exact hclub heq

/-- C4 witness: the amended statement at a concrete club-limit-respecting
context and its emitted suggestion. -/
theorem C4_witness :
    postSwapOcc ctx4w s4wval ≤ 3 ∧ mkRat 1 2 < s4wval.ep_improvement :=
  C4_amended_club_and_threshold ctx4w s4wval (by decide)
    (fun nm => by
      have hred : squadClubCount ctx4w nm =
          ((squadEntries ctx4w.players ctx4w.teams [samplePick 1 11 4 50]).filter
            (fun e => e.team == nm)).length := rfl
      rw [hred]
      exact le_trans (List.length_filter_le _ _) (by decide))

/-- C5 counterexample: on a restructured document with an empty
available-chips list, the *pipeline* extractor renders the chips variable as
`"None available"`, not `"None"` as the claim states for both entry points
(the companion does render `"None"`). -/
theorem C5_cex_pipeline_chips_string :
    extract_prompt_variables doc5 = PyOutcome.ok
      { GW := "3", BANK := "1.0", FT := "1", CHIPS_AVAILABLE := "None available" } ∧
    "None available" ≠ "None" :=
  ⟨by decide, by decide⟩

/-- C5 amended: both entry points extract exactly the four scalar variables
`GW`, `BANK` (one decimal), `FT` and `CHIPS_AVAILABLE` (comma-joined); when
the available-chips list is empty the chips variable is `"None available"`
in the pipeline entry point and `"None"` in the companion entry point. -/
theorem C5_amended_four_variables_and_chips :
    (∀ (d : ContextDoc) (s : Summary), d.irf_summary = some (some s) →
      s.chips_available = [] →
      extract_prompt_variables d = PyOutcome.ok
        { GW := toString s.gameweek, BANK := fmt1 s.bank_available,
          FT := toString s.free_transfers, CHIPS_AVAILABLE := "None available" }) ∧
    (∀ (d : ContextDoc) (gw : Int) (ts : TeamStateDoc) (t : Transfers)
        (cs : List Chip),
      d.meta_gameweek = some gw → d.team_state = some ts →
      ts.my_team.transfers = some t → ts.my_team.chips = some cs →
      (cs.filter (fun c => c.status_for_entry == "available")).map Chip.name = [] →
      extract_data_from_context d = some
        { GW := toString gw, BANK := fmt1 (qdiv10 t.bank),
          FT := toString (t.limit - t.made), CHIPS_AVAILABLE := "None" }) := by
  constructor
  · intro d s h1 h2
    simp only [extract_prompt_variables, h1, h2, List.isEmpty_nil, if_pos]
  · intro d gw ts t cs h1 h2 h3 h4 h5
    simp only [extract_data_from_context, h1, h2, h3, h4, h5, List.isEmpty_nil, if_pos]

/-- C5 witness: the amended statement at concrete documents for both entry
points. -/
theorem C5_witness :
    extract_prompt_variables doc5 = PyOutcome.ok
      { GW := toString sum5.gameweek, BANK := fmt1 sum5.bank_available,
        FT := toString sum5.free_transfers, CHIPS_AVAILABLE := "None available" } ∧
    extract_data_from_context doc5b = some
      { GW := toString (8 : Int), BANK := fmt1 (qdiv10 12),
        FT := toString ((1 : Int) - 0), CHIPS_AVAILABLE := "None" } :=
  ⟨C5_amended_four_variables_and_chips.1 doc5 sum5 rfl rfl,
   C5_amended_four_variables_and_chips.2 doc5b 8
     { my_team := { error := none, picks := none, transfers := some ⟨12, 1, 0⟩,
                    chips := some [⟨"wildcard", "played"⟩] },
       history_current := some [⟨12⟩] } ⟨12, 1, 0⟩ [⟨"wildcard", "played"⟩]
     rfl rfl rfl rfl (by decide)⟩

/-- C6: free-transfer extraction — with an authenticated team detail
reporting limit 2 and made 1, the written summary and the extracted `FT`
variable both report 1 (limit minus made); with an error-sentinel team
detail, the free-transfer count defaults to 1 and the corresponding
data-quality warning string is present in the written document. -/
theorem C6_free_transfer_extraction :
    docFreeTransfers (restructure ctx6a) = some 1 ∧
    extract_prompt_variables (restructure ctx6a) = PyOutcome.ok
      { GW := "5", BANK := "2.0", FT := "1", CHIPS_AVAILABLE := "None available" } ∧
    docFreeTransfers (restructure ctx6b) = some 1 ∧
    extract_prompt_variables (restructure ctx6b) = PyOutcome.ok
      { GW := "5", BANK := "2.0", FT := "1", CHIPS_AVAILABLE := "None available" } ∧
    "CRITICAL: Team data unavailable - authentication required for accurate analysis" ∈
      docWarnings (restructure ctx6b) :=
  ⟨by decide, by decide, by decide, by decide, by decide⟩

/-- C7 counterexample: in `ctx7` the two midfielders have equal `ep_next`;
the catalog lists player 1 before player 2, but the squad list (hence the
advisor's group) is in lineup order `[2, 1]`, and the advisor selects player
2 as outgoing — catalog-order tie-breaking would have selected player 1. -/
theorem C7_cex_tie_break_not_catalog_order :
    ctx7.players.map Player.id = [1, 2, 3] ∧
    (get_current_squad_analysis ctx7).map (fun sa =>
      (sa.squad.filter (fun p => p.position_type == position_names 3)).map
        (fun e => (e.element_id, e.ep_next))) = some [(2, 2), (1, 2)] ∧
    (suggest_transfers ctx7).map Suggestion.out_id = [2] :=
  ⟨by decide, by decide, by decide⟩

/-- C7 amended: for every position category with at least one squad member,
the outgoing player the advisor works with (`minByFirst` over the category
group) is the member with minimal `ep_next`, ties broken by *lineup-position
order* — the squad list is sorted by lineup position ascending and the first
minimum in that order is selected. -/
theorem C7_amended_weakest_first_min_in_lineup_order (ctx : Context)
    (sa : SquadAnalysis) (pos : Nat) (c : SquadEntry) (cs : List SquadEntry)
    (hsa : get_current_squad_analysis ctx = some sa)
    (hfil : sa.squad.filter (fun p => p.position_type == position_names pos) = c :: cs) :
    sa.squad.Pairwise (fun a b => a.position ≤ b.position) ∧
    minByFirst (fun e => e.ep_next) c cs ∈ c :: cs ∧
    (∀ e ∈ c :: cs, (minByFirst (fun e => e.ep_next) c cs).ep_next ≤ e.ep_next) ∧
    ∃ l1 l2, c :: cs = l1 ++ minByFirst (fun e => e.ep_next) c cs :: l2 ∧
      ∀ e ∈ l1, (minByFirst (fun e => e.ep_next) c cs).ep_next < e.ep_next := by
  constructor
  · unfold get_current_squad_analysis at hsa
    by_cases herr : ctx.my_team.error.isSome = true
    · rw [if_pos herr] at hsa
      exact absurd hsa (by simp)
    · rw [if_neg herr] at hsa
      obtain ⟨picks, hp, hval⟩ := Option.map_eq_some'.mp hsa
      rw [← hval]
      exact squad_sorted_by_position ctx.players ctx.teams picks
  · exact minByFirst_spec (fun e => e.ep_next) c cs

/-- C7 witness: the amended statement at `ctx7`'s MID group. -/
theorem C7_witness :
    (squadAnalysisOfPicks ctx7.players ctx7.teams
      [samplePick 1 7 3 50, samplePick 2 5 3 50]).squad.Pairwise
        (fun a b => a.position ≤ b.position) ∧
    minByFirst (fun e => e.ep_next) c7head c7tail ∈ c7head :: c7tail ∧
    (∀ e ∈ c7head :: c7tail,
      (minByFirst (fun e => e.ep_next) c7head c7tail).ep_next ≤ e.ep_next) ∧
    ∃ l1 l2, c7head :: c7tail = l1 ++ minByFirst (fun e => e.ep_next) c7head c7tail :: l2 ∧
      ∀ e ∈ l1, (minByFirst (fun e => e.ep_next) c7head c7tail).ep_next < e.ep_next :=
  C7_amended_weakest_first_min_in_lineup_order ctx7
    (squadAnalysisOfPicks ctx7.players ctx7.teams
      [samplePick 1 7 3 50, samplePick 2 5 3 50]) 3 c7head c7tail rfl (by decide)

/-- C8: the fixture estimator's accumulator holds exactly the teams
appearing in at least one recognized windowed fixture (absent otherwise, not
zero-filled), with their total difficulty (missing difficulties defaulting
to 3) and fixture count; under injective team naming the output is that
accumulator re-keyed by team name with the average rounded to two decimals;
and concretely a team with one home fixture of difficulty 2 and one away
fixture of difficulty 4 is reported with average exactly 3.0 over 2
fixtures. -/
theorem C8_fixture_difficulty_averages :
    (∀ (ctx : Context) (tid : Nat),
      lookupId tid (fixtureAccum ctx) =
        if teamFixtureCount ctx tid = 0 then none
        else some (teamDifficultySum ctx tid, teamFixtureCount ctx tid)) ∧
    (∀ ctx : Context,
      (fixtureAccum ctx).Pairwise (fun a b =>
        teamNameOf ctx.teams a.1 ≠ teamNameOf ctx.teams b.1) →
      calculate_fixtures_difficulty ctx = (fixtureAccum ctx).map
        (fun e => (teamNameOf ctx.teams e.1, rnd2 (qavg e.2.1 e.2.2), e.2.2))) ∧
    calculate_fixtures_difficulty ctx8 = [("AAA", 3, 2), ("BBB", mkRat 7 2, 2)] :=
  ⟨fixtureAccum_lookup, calculate_fixtures_difficulty_eq, by decide⟩

/-- C8 witness: the naming hypothesis discharged at the concrete window
`ctx8`, plus the id-level lookup at team 1. -/
theorem C8_witness :
    calculate_fixtures_difficulty ctx8 = (fixtureAccum ctx8).map
      (fun e => (teamNameOf ctx8.teams e.1, rnd2 (qavg e.2.1 e.2.2), e.2.2)) ∧
    lookupId 1 (fixtureAccum ctx8) =
      (if teamFixtureCount ctx8 1 = 0 then none
       else some (teamDifficultySum ctx8 1, teamFixtureCount ctx8 1)) :=
  ⟨C8_fixture_difficulty_averages.2.1 ctx8 (by decide),
   C8_fixture_difficulty_averages.1 ctx8 1⟩

/-- C9: squad-analysis error contract — the analysis returns `None` when the
authenticated team detail carries the error sentinel, and a pick whose
player id does not resolve is skipped while the remaining picks are
processed: the analysis of a pick list with an unresolvable pick equals the
analysis of the list without it. -/
theorem C9_squad_analysis_error_contract :
    (∀ ctx : Context, ctx.my_team.error.isSome = true →
      get_current_squad_analysis ctx = none) ∧
    (∀ (players : List Player) (teams : List Team) (l1 l2 : List Pick) (bad : Pick),
      build_player_lookup players bad.element = none →
      squadAnalysisOfPicks players teams (l1 ++ bad :: l2) =
        squadAnalysisOfPicks players teams (l1 ++ l2)) := by
  constructor
  · intro ctx h
    unfold get_current_squad_analysis
    rw [if_pos h]
  · exact squadAnalysisOfPicks_skip

/-- C9 witness: the contract at a concrete error-sentinel context and at a
concrete pick list containing an unresolvable pick (id 99). -/
theorem C9_witness :
    get_current_squad_analysis ctx9e = none ∧
    squadAnalysisOfPicks players9 teams9 ([samplePick 1 2 3 50] ++ badPick9 :: []) =
      squadAnalysisOfPicks players9 teams9 ([samplePick 1 2 3 50] ++ []) :=
  ⟨C9_squad_analysis_error_contract.1 ctx9e rfl,
   C9_squad_analysis_error_contract.2 players9 teams9 [samplePick 1 2 3 50] [] badPick9 rfl⟩

/-- C10: every entry of the analyzed squad stems from a resolved catalog
player and carries rational `ep_next`, `form` and `ict_index` values with
`0` substituted for a null/empty catalog value — so the advisor's
minimum-projection selection and points-delta arithmetic (total functions on
`ℚ` in this model) never meet a missing value. -/
theorem C10_numeric_defaults (ctx : Context) (sa : SquadAnalysis) (e : SquadEntry)
    (hsa : get_current_squad_analysis ctx = some sa) (he : e ∈ sa.squad) :
    ∃ p : Player, build_player_lookup ctx.players e.element_id = some p ∧
      e.ep_next = p.ep_next.getD 0 ∧ e.form = p.form.getD 0 ∧
      e.ict_index = p.ict_index.getD 0 ∧ e.cost = qdiv10 p.now_cost ∧
      e.status = p.status := by
  unfold get_current_squad_analysis at hsa
  by_cases herr : ctx.my_team.error.isSome = true
  · rw [if_pos herr] at hsa
    exact absurd hsa (by simp)
  · rw [if_neg herr] at hsa
    obtain ⟨picks, hp, hval⟩ := Option.map_eq_some'.mp hsa
    rw [← hval] at he
    exact squad_entry_resolved he

/-- C10 witness: the defaulting behavior at `ctx10`, whose one player has
null `ep_next`, `form` and `ict_index`. -/
theorem C10_witness :
    ∃ p : Player, build_player_lookup ctx10.players e10.element_id = some p ∧
      e10.ep_next = p.ep_next.getD 0 ∧ e10.form = p.form.getD 0 ∧
      e10.ict_index = p.ict_index.getD 0 ∧ e10.cost = qdiv10 p.now_cost ∧
      e10.status = p.status :=
  C10_numeric_defaults ctx10
    (squadAnalysisOfPicks ctx10.players ctx10.teams [samplePick 3 4 2 40]) e10
    rfl (by decide)
